import Mathlib

/-!
Verification of the response-normalization pipeline of the leaf-disease
detection repository.

Shallow embedding conventions:
* Python strings are modelled as `List Char`.
* JSON values (the result of `json.loads`) are modelled by `JValue`;
  Python `None` and JSON `null` are identified, as in CPython.
* Python dicts are association lists (`PyDict`); `json.loads` builds
  them left to right with later duplicate keys overwriting earlier ones,
  which `dictSet` reproduces.
* Machine floats are modelled as exact decimals (`Dec`, a mantissa and a
  power of ten in canonical form); the float values in the program are
  small decimal literals, exactly representable.
* Exceptions are modelled with `Except PyError`; the distinct raise sites
  of the source are distinguished by the `PyError` constructor.
* Randomness (`random.random`, `random.choice`, `random.randint`,
  `random.sample`) is modelled by an oracle `MockRand` holding the
  outcomes the random module would have produced.
-/

/-! ## Definitions: the shallow embedding of the program -/

/-- The characters stripped by Python `str.strip()`. -/
def isPyWs (c : Char) : Bool :=
  c == ' ' || c == '\t' || c == '\n' || c == '\r' || c == '\x0b' || c == '\x0c'

/-- Whitespace skipped by the JSON grammar. -/
def isJsonWs (c : Char) : Bool :=
  c == ' ' || c == '\t' || c == '\n' || c == '\r'

/-- Leading part of `str.strip()`. -/
def stripLeft (cs : List Char) : List Char := cs.dropWhile isPyWs

/-- Trailing part of `str.strip()`. -/
def stripRight (cs : List Char) : List Char := (cs.reverse.dropWhile isPyWs).reverse

/-- Python `str.strip()`. -/
def pyStrip (cs : List Char) : List Char := stripRight (stripLeft cs)

/-- Python `str.startswith`. -/
def pyStartsWith (cs pat : List Char) : Bool := pat.isPrefixOf cs

/-- Fuelled worker for Python `str.replace`; the fuel only serves
structural recursion and is irrelevant once at least `cs.length`. -/
def replaceAllF (p0 : Char) (pr rep : List Char) : Nat → List Char → List Char
  | _, [] => []
  | 0, cs => cs
  | fuel + 1, c :: rest =>
    if (p0 :: pr).isPrefixOf (c :: rest) then
      rep ++ replaceAllF p0 pr rep fuel (rest.drop pr.length)
    else
      c :: replaceAllF p0 pr rep fuel rest

/-- Python `str.replace(pat, rep)` for a non-empty pattern `p0 :: pr`:
left-to-right, non-overlapping replacement of every occurrence. -/
def replaceAll (p0 : Char) (pr rep cs : List Char) : List Char :=
  replaceAllF p0 pr rep cs.length cs

/-- Whether `pat` occurs as a contiguous substring of the list. -/
def containsSeq (pat : List Char) : List Char → Bool
  | [] => pat.isPrefixOf []
  | c :: rest => pat.isPrefixOf (c :: rest) || containsSeq pat rest

/-- The character `{`, kept out of the source text. -/
def openBrace : Char := Char.ofNat 123

/-- The character `}`. -/
def closeBrace : Char := Char.ofNat 125

/-- An exact decimal `m * 10 ^ e`, the model of the float values this
program handles (all of which are short decimal literals). -/
structure Dec where
  m : ℤ
  e : ℤ
deriving DecidableEq

/-- Worker for `decCanon`; the fuel bounds how many factors of ten can
be moved from the mantissa into the exponent. -/
def decCanonF : Nat → ℤ → ℤ → Dec
  | 0, m, e => ⟨m, e⟩
  | fuel + 1, m, e =>
    if m = 0 then ⟨0, 0⟩
    else if m % 10 = 0 then decCanonF fuel (m / 10) (e + 1)
    else ⟨m, e⟩

/-- Canonical form of `m * 10 ^ e`: zero is `⟨0, 0⟩` and a non-zero
mantissa is not divisible by ten, so two decimals are numerically equal
iff they are structurally equal. -/
def decCanon (m e : ℤ) : Dec := decCanonF m.natAbs m e

/-- Order on canonical decimals, used for `random.random() < p`. -/
def decLt (a b : Dec) : Bool :=
  let e0 := min a.e b.e
  a.m * (10 : ℤ) ^ (a.e - e0).toNat < b.m * (10 : ℤ) ^ (b.e - e0).toNat

/-- JSON values as produced by `json.loads` (numbers as exact decimals,
objects as insertion-ordered association lists with unique keys). -/
inductive JValue where
  | null : JValue
  | bool : Bool → JValue
  | num : Dec → JValue
  | str : List Char → JValue
  | arr : List JValue → JValue
  | obj : List (List Char × JValue) → JValue

/-- A Python dict with string keys. -/
abbrev PyDict := List (List Char × JValue)

/-- Python `dict[k] = v`: overwrite in place if the key is present
(keeping its position), else append. -/
def dictSet (kvs : PyDict) (k : List Char) (v : JValue) : PyDict :=
  if kvs.any (fun p => p.1 == k) then
    kvs.map (fun p => if p.1 == k then (k, v) else p)
  else
    kvs ++ [(k, v)]

/-- Python `dict.get(k)` (`none` when the key is absent). -/
def pyGet (kvs : PyDict) (k : List Char) : Option JValue :=
  (kvs.filter (fun p => p.1 == k)).getLast?.map (·.2)

/-- Python `dict.get(k, d)`. -/
def pyGetD (kvs : PyDict) (k : List Char) (d : JValue) : JValue :=
  (pyGet kvs k).getD d

/-- Python truthiness of a JSON value (`bool(v)`). -/
def pyTruthy : JValue → Bool
  | .null => false
  | .bool b => b
  | .num q => q.m != 0
  | .str s => !s.isEmpty
  | .arr xs => !xs.isEmpty
  | .obj kvs => !kvs.isEmpty

/-- Truthiness of the result of `dict.get(k)` (absent key is falsy `None`). -/
def pyTruthyO : Option JValue → Bool
  | none => false
  | some v => pyTruthy v

/-- Digit test for the decimal digits. -/
def isDigitCh (c : Char) : Bool := '0' ≤ c && c ≤ '9'

/-- Numeric value of a decimal digit run. -/
def digitsToNat (ds : List Char) : Nat :=
  ds.foldl (fun a c => 10 * a + (c.toNat - '0'.toNat)) 0

/-- Value of a decimal literal with integer digits `ip`, fraction
digits `fd` and exponent `e`. -/
def floatOfParts (neg : Bool) (ip fd : List Char) (e : ℤ) : Dec :=
  let mag : ℤ := (digitsToNat ip : ℤ) * (10 : ℤ) ^ fd.length + (digitsToNat fd : ℤ)
  decCanon (if neg then -mag else mag) (e - fd.length)

/-- Python `float(s)` on a string argument: optional surrounding
whitespace and sign, then decimal digits with optional fraction and
exponent.  (The `inf`/`nan` spellings accepted by CPython are not
modelled; no input in this development uses them.) -/
def pyFloatParse (s0 : List Char) : Option Dec :=
  let s := pyStrip s0
  let (neg, s1) : Bool × List Char :=
    match s with
    | '+' :: r => (false, r)
    | '-' :: r => (true, r)
    | _ => (false, s)
  let ip := s1.takeWhile isDigitCh
  let s2 := s1.dropWhile isDigitCh
  let (fd, s3) : List Char × List Char :=
    match s2 with
    | '.' :: r => (r.takeWhile isDigitCh, r.dropWhile isDigitCh)
    | _ => ([], s2)
  if ip.isEmpty && fd.isEmpty then none
  else
    match s3 with
    | [] => some (floatOfParts neg ip fd 0)
    | c :: r =>
      if c = 'e' || c = 'E' then
        let (esgn, r2) : ℤ × List Char :=
          match r with
          | '+' :: rr => (1, rr)
          | '-' :: rr => (-1, rr)
          | _ => (1, r)
        let ed := r2.takeWhile isDigitCh
        if ed.isEmpty then none
        else if (r2.dropWhile isDigitCh).isEmpty then
          some (floatOfParts neg ip fd (esgn * (digitsToNat ed : ℤ)))
        else none
      else none

/-- The distinct raise sites of the source, as a typed error. -/
inductive PyError where
  /-- `ValueError("Unable to parse API response as JSON: ...")`,
  carrying the first 200 characters of the raw reply. -/
  | unparseable (excerpt : List Char)
  /-- `ValueError` from `float()` applied to a non-numeric string. -/
  | floatValueError
  /-- `TypeError` from `float()` applied to `None`, a list or a dict. -/
  | floatTypeError
  /-- `AttributeError` from `.get` on a parse result that is not a dict. -/
  | attributeError
  /-- `ValueError("base64_image cannot be empty")` (`InvalidInputError`). -/
  | emptyInputError
  /-- `IndexError` from `split(',', 1)[1]` when no comma is present. -/
  | indexError
deriving DecidableEq

/-- Python `float(v)` on a JSON value: numbers pass through, bools are
`1`/`0`, strings go through `float(str)`, everything else is a
`TypeError`. -/
def pyFloat : JValue → Except PyError Dec
  | .num q => .ok q
  | .bool b => .ok (if b then ⟨1, 0⟩ else ⟨0, 0⟩)
  | .str s =>
    match pyFloatParse s with
    | some q => .ok q
    | none => .error .floatValueError
  | .null => .error .floatTypeError
  | .arr _ => .error .floatTypeError
  | .obj _ => .error .floatTypeError

/-- Skip JSON whitespace. -/
def skipWs (cs : List Char) : List Char := cs.dropWhile isJsonWs

/-- Value of a hexadecimal digit. -/
def hexVal (c : Char) : Option Nat :=
  if '0' ≤ c ∧ c ≤ '9' then some (c.toNat - '0'.toNat)
  else if 'a' ≤ c ∧ c ≤ 'f' then some (c.toNat - 'a'.toNat + 10)
  else if 'A' ≤ c ∧ c ≤ 'F' then some (c.toNat - 'A'.toNat + 10)
  else none

/-- Body of a JSON string literal, after the opening quote: returns the
decoded characters and the input following the closing quote. -/
def parseStrBody : List Char → Option (List Char × List Char)
  | [] => none
  | c :: rest =>
    if c = '"' then some ([], rest)
    else if c = '\\' then
      match rest with
      | [] => none
      | e :: rest2 =>
        if e = '"' then (parseStrBody rest2).map (fun p => ('"' :: p.1, p.2))
        else if e = '\\' then (parseStrBody rest2).map (fun p => ('\\' :: p.1, p.2))
        else if e = '/' then (parseStrBody rest2).map (fun p => ('/' :: p.1, p.2))
        else if e = 'b' then (parseStrBody rest2).map (fun p => (Char.ofNat 8 :: p.1, p.2))
        else if e = 'f' then (parseStrBody rest2).map (fun p => (Char.ofNat 12 :: p.1, p.2))
        else if e = 'n' then (parseStrBody rest2).map (fun p => ('\n' :: p.1, p.2))
        else if e = 'r' then (parseStrBody rest2).map (fun p => ('\r' :: p.1, p.2))
        else if e = 't' then (parseStrBody rest2).map (fun p => ('\t' :: p.1, p.2))
        else if e = 'u' then
          match rest2 with
          | h1 :: h2 :: h3 :: h4 :: rest3 =>
            match hexVal h1, hexVal h2, hexVal h3, hexVal h4 with
            | some a, some b, some c2, some d =>
              (parseStrBody rest3).map
                (fun p => (Char.ofNat (((a * 16 + b) * 16 + c2) * 16 + d) :: p.1, p.2))
            | _, _, _, _ => none
          | _ => none
        else none
    else if c.toNat < 32 then none
    else (parseStrBody rest).map (fun p => (c :: p.1, p.2))

/-- A JSON number literal: `-? (0 | [1-9][0-9]*) frac? exp?`.  A
malformed fraction or exponent suffix is left unconsumed, which makes
the enclosing parse fail exactly where the CPython parse does. -/
def parseNumber (cs : List Char) : Option (Dec × List Char) :=
  let (neg, cs1) : Bool × List Char :=
    match cs with
    | '-' :: r => (true, r)
    | _ => (false, cs)
  let ipOpt : Option (List Char × List Char) :=
    match cs1 with
    | '0' :: r => some (['0'], r)
    | c :: r =>
      if isDigitCh c then some (c :: r.takeWhile isDigitCh, r.dropWhile isDigitCh)
      else none
    | [] => none
  match ipOpt with
  | none => none
  | some (ip, cs2) =>
    let (fd, cs3) : List Char × List Char :=
      match cs2 with
      | '.' :: r =>
        let ds := r.takeWhile isDigitCh
        if ds.isEmpty then ([], cs2) else (ds, r.dropWhile isDigitCh)
      | _ => ([], cs2)
    let (e, cs4) : ℤ × List Char :=
      match cs3 with
      | c :: r =>
        if c = 'e' || c = 'E' then
          let (esgn, r2) : ℤ × List Char :=
            match r with
            | '+' :: rr => (1, rr)
            | '-' :: rr => (-1, rr)
            | _ => (1, r)
          let ed := r2.takeWhile isDigitCh
          if ed.isEmpty then (0, cs3)
          else (esgn * (digitsToNat ed : ℤ), r2.dropWhile isDigitCh)
        else (0, cs3)
      | [] => (0, cs3)
    some (floatOfParts neg ip fd e, cs4)

mutual

/-- A JSON value; the fuel only bounds the recursion depth and
`jsonLoads` supplies more than enough of it. -/
def parseValue : Nat → List Char → Option (JValue × List Char)
  | 0, _ => none
  | fuel + 1, cs =>
    match skipWs cs with
    | [] => none
    | c :: rest =>
      if c = 'n' then
        match rest with
        | 'u' :: 'l' :: 'l' :: r => some (.null, r)
        | _ => none
      else if c = 't' then
        match rest with
        | 'r' :: 'u' :: 'e' :: r => some (.bool true, r)
        | _ => none
      else if c = 'f' then
        match rest with
        | 'a' :: 'l' :: 's' :: 'e' :: r => some (.bool false, r)
        | _ => none
      else if c = '"' then
        match parseStrBody rest with
        | some (s, r) => some (.str s, r)
        | none => none
      else if c = '[' then
        match skipWs rest with
        | ']' :: r => some (.arr [], r)
        | r2 => parseElems fuel r2 []
      else if c = openBrace then
        match skipWs rest with
        | c2 :: r3 =>
          if c2 = closeBrace then some (.obj [], r3)
          else parseMembers fuel (c2 :: r3) []
        | [] => none
      else
        match parseNumber (c :: rest) with
        | some (q, r) => some (.num q, r)
        | none => none

/-- Comma-separated array elements up to the closing bracket. -/
def parseElems : Nat → List Char → List JValue → Option (JValue × List Char)
  | 0, _, _ => none
  | fuel + 1, cs, acc =>
    match parseValue fuel cs with
    | none => none
    | some (v, r) =>
      match skipWs r with
      | ',' :: r2 => parseElems fuel r2 (acc ++ [v])
      | ']' :: r2 => some (.arr (acc ++ [v]), r2)
      | _ => none

/-- Comma-separated object members up to the closing brace; duplicate
keys overwrite as in the CPython dict construction. -/
def parseMembers : Nat → List Char → PyDict → Option (JValue × List Char)
  | 0, _, _ => none
  | fuel + 1, cs, acc =>
    match skipWs cs with
    | '"' :: r =>
      match parseStrBody r with
      | some (k, r2) =>
        match skipWs r2 with
        | ':' :: r3 =>
          match parseValue fuel r3 with
          | none => none
          | some (v, r4) =>
            match skipWs r4 with
            | ',' :: r5 => parseMembers fuel r5 (dictSet acc k v)
            | c5 :: r5 =>
              if c5 = closeBrace then some (.obj (dictSet acc k v), r5)
              else none
            | [] => none
        | _ => none
      | none => none
    | _ => none

end

/-- Python `json.loads`: parse one JSON value and require that only
whitespace follows it. -/
def jsonLoads (cs : List Char) : Option JValue :=
  match parseValue (cs.length + 1) cs with
  | some (v, rest) => if skipWs rest = [] then some v else none
  | none => none

/-- The backtick character. -/
def tick : Char := Char.ofNat 96

/-- The fence marker with language tag (three backticks then `json`). -/
def fenceJson : List Char := [tick, tick, tick, 'j', 's', 'o', 'n']

/-- The bare fence marker (three backticks). -/
def fence3 : List Char := [tick, tick, tick]

/-- Python `s.replace(pat, rep)` on a pattern given as a plain list
(the patterns used by the source are never empty). -/
def replaceAllL (pat rep cs : List Char) : List Char :=
  match pat with
  | [] => cs
  | p0 :: pr => replaceAll p0 pr rep cs

/-- The fence-stripping preamble of `_parse_response`: strip, then
remove fence markers when the text starts with one. -/
def cleanFences (raw : List Char) : List Char :=
  let cleaned := pyStrip raw
  if pyStartsWith cleaned fenceJson then
    pyStrip (replaceAllL fence3 [] (replaceAllL fenceJson [] cleaned))
  else if pyStartsWith cleaned fence3 then
    pyStrip (replaceAllL fence3 [] cleaned)
  else cleaned

/-- Everything except `{`. -/
def notOpenCh (c : Char) : Bool := !(c == openBrace)

/-- Everything except `}`. -/
def notCloseCh (c : Char) : Bool := !(c == closeBrace)

/-- The substring from the first `\x7b` to the last `\x7d` (empty when
there is no such span). -/
def braceCore (raw : List Char) : List Char :=
  ((raw.dropWhile notOpenCh).reverse.dropWhile notCloseCh).reverse

/-- Model of `re.search` with the greedy dot-all pattern brace-dot-star-brace: the match from
the first opening brace to the last closing brace, if any. -/
def braceExtract (raw : List Char) : Option (List Char) :=
  if braceCore raw = [] then none else some (braceCore raw)

/-- The `DiseaseAnalysisResult` dataclass.  Fields hold the raw JSON
values the constructor received (CPython does not check their types);
the two `bool(...)` and `float(...)` coercions and the dataclass
`__post_init__` are applied by `buildResult`. -/
structure DiseaseAnalysisResult where
  disease_detected : Bool
  disease_name : JValue
  disease_type : JValue
  severity : JValue
  confidence : Dec
  symptoms : JValue
  possible_causes : JValue
  treatment : JValue
  common_pests : JValue
  pest_detected : Bool
  pest_name : JValue
  pest_severity : JValue
  pest_confidence : Dec
  pest_symptoms : JValue
  pest_treatment : JValue
  analysis_timestamp : List Char

/-- Model of `__post_init__`: a `None` list field becomes the empty list. -/
def postInitList (v : JValue) : JValue :=
  match v with
  | .null => .arr []
  | v => v

/-- The constructor call of `_parse_response`: populate the dataclass
from the parsed object.  `.get` on a non-dict raises `AttributeError`;
the two `float(...)` coercions raise in source order.  The
`load_timestamp` argument is the value the dataclass field default
`datetime.now().astimezone().isoformat()` received when the class body
was evaluated, at module load. -/
def buildResult (load_timestamp : List Char) : JValue → Except PyError DiseaseAnalysisResult
  | .obj kvs => do
    let conf ← pyFloat (pyGetD kvs "confidence".toList (.num ⟨0, 0⟩))
    let pconf ← pyFloat (pyGetD kvs "pest_confidence".toList (.num ⟨0, 0⟩))
    .ok {
      disease_detected := pyTruthy (pyGetD kvs "disease_detected".toList (.bool false)),
      disease_name := pyGetD kvs "disease_name".toList .null,
      disease_type := pyGetD kvs "disease_type".toList (.str "unknown".toList),
      severity := pyGetD kvs "severity".toList (.str "unknown".toList),
      confidence := conf,
      symptoms := pyGetD kvs "symptoms".toList (.arr []),
      possible_causes := pyGetD kvs "possible_causes".toList (.arr []),
      treatment := pyGetD kvs "treatment".toList (.arr []),
      common_pests := postInitList (pyGetD kvs "common_pests".toList (.arr [])),
      pest_detected := pyTruthy (pyGetD kvs "pest_detected".toList (.bool false)),
      pest_name := pyGetD kvs "pest_name".toList .null,
      pest_severity := pyGetD kvs "pest_severity".toList (.str "none".toList),
      pest_confidence := pconf,
      pest_symptoms := postInitList (pyGetD kvs "pest_symptoms".toList (.arr [])),
      pest_treatment := postInitList (pyGetD kvs "pest_treatment".toList (.arr [])),
      analysis_timestamp := load_timestamp }
  | _ => .error .attributeError

/-- Model of `_parse_response`: direct parse of the fence-cleaned text, then the
brace-to-brace extraction fallback on the original text, then the
`ValueError` carrying the first 200 characters of the raw reply.  Only
`json.JSONDecodeError` is caught, so `buildResult` errors propagate. -/
def parse_response (load_timestamp raw : List Char) : Except PyError DiseaseAnalysisResult :=
  match jsonLoads (cleanFences raw) with
  | some v => buildResult load_timestamp v
  | none =>
    match braceExtract raw with
    | some sub =>
      match jsonLoads sub with
      | some v => buildResult load_timestamp v
      | none => .error (.unparseable (raw.take 200))
    | none => .error (.unparseable (raw.take 200))

/-- The input-validation and prefix-stripping step of
`analyze_leaf_image_base64` (the subsequent network call is outside the
model).  `split(',', 1)[1]` raises `IndexError` when no comma exists. -/
def splitOnceComma : List Char → Option (List Char × List Char)
  | [] => none
  | c :: rest =>
    if c = ',' then some ([], rest)
    else (splitOnceComma rest).map (fun p => (c :: p.1, p.2))

/-- The `data:` prefix marker. -/
def dataMarker : List Char := "data:".toList

/-- Lines 150-159 of `analyze_leaf_image_base64`: reject empty input,
strip a data-URL prefix up to and including the first comma, and pass
everything else through unchanged. -/
def analyze_leaf_image_base64_input (base64_image : List Char) : Except PyError (List Char) :=
  if base64_image.isEmpty then .error .emptyInputError
  else if pyStartsWith base64_image dataMarker then
    match splitOnceComma base64_image with
    | some p => .ok p.2
    | none => .error .indexError
  else .ok base64_image

/-- Shorthand for string-literal transcription. -/
def tl (s : String) : List Char := s.toList

/-- Shorthand for lists of string literals. -/
def tls (xs : List String) : List (List Char) := xs.map String.toList

/-- One entry of the `pest_library` database in `add_mock_pest_data`. -/
structure PestInfo where
  name : List Char
  symptoms : List (List Char)
  treatments : List (List Char)

/-- The `pest_library` dict of `add_mock_pest_data`, in insertion
order. -/
def pest_library : List (List Char × PestInfo) := [
  (tl "aphids", ⟨tl "Aphids",
    tls ["Small green/black insects on undersides", "Sticky honeydew residue",
         "Curled or distorted leaves", "Sooty mold growth"],
    tls ["Spray with insecticidal soap", "Apply neem oil solution",
         "Introduce ladybugs or lacewings", "Use strong water spray to dislodge"]⟩),
  (tl "spider_mites", ⟨tl "Spider Mites",
    tls ["Fine webbing on leaves", "Yellow stippling on leaf surfaces",
         "Leaf discoloration and drop", "Tiny moving dots on undersides"],
    tls ["Increase humidity around plants", "Apply miticide or horticultural oil",
         "Spray with water regularly", "Remove heavily infested leaves"]⟩),
  (tl "whiteflies", ⟨tl "Whiteflies",
    tls ["Small white flying insects when disturbed", "Yellowing and wilting leaves",
         "Sticky honeydew secretion", "Sooty mold development"],
    tls ["Use yellow sticky traps", "Apply insecticidal soap",
         "Introduce parasitic wasps", "Spray with horticultural oil"]⟩),
  (tl "mealybugs", ⟨tl "Mealybugs",
    tls ["White cottony masses in leaf axils", "Stunted plant growth",
         "Yellowing and leaf drop", "Honeydew and sooty mold"],
    tls ["Dab with cotton swab dipped in alcohol", "Apply insecticidal soap",
         "Use systemic insecticides", "Prune heavily infested areas"]⟩),
  (tl "scale_insects", ⟨tl "Scale Insects",
    tls ["Brown/white bumps on stems and leaves", "Yellowing and wilting",
         "Sticky residue on leaves", "Poor plant growth"],
    tls ["Scrape off visible scales manually", "Apply horticultural oil spray",
         "Use systemic insecticides", "Prune affected branches"]⟩),
  (tl "thrips", ⟨tl "Thrips",
    tls ["Silvery streaks on leaves", "Deformed flowers and buds",
         "Black specks (excrement)", "Stunted growth"],
    tls ["Use blue sticky traps", "Apply spinosad-based insecticides",
         "Introduce predatory mites", "Remove affected plant parts"]⟩),
  (tl "caterpillars", ⟨tl "Caterpillars",
    tls ["Chewed leaves and holes", "Visible larvae on plants",
         "Frass (droppings) on leaves", "Skeletonized leaves"],
    tls ["Handpick caterpillars manually", "Apply BT (Bacillus thuringiensis)",
         "Use floating row covers", "Apply spinosad if severe"]⟩),
  (tl "leaf_miners", ⟨tl "Leaf Miners",
    tls ["Winding white trails on leaves", "Blotchy white patches",
         "Reduced photosynthesis", "Leaf drop in severe cases"],
    tls ["Remove and destroy affected leaves", "Use yellow sticky traps",
         "Apply spinosad spray", "Introduce parasitic wasps"]⟩)]

/-- The library name field looked up at key `k`, for keys produced by sampling. -/
def pestNameOf (k : List Char) : List Char :=
  (((pest_library.find? (fun p => p.1 == k)).map (fun p => p.2.name))).getD []

/-- The three severity choices (mild, moderate, severe). -/
def severityChoices : List (List Char) := tls ["mild", "moderate", "severe"]

/-- Python `result.get("disease_type") == "invalid_image"`. -/
def isInvalidImage : Option JValue → Bool
  | some (.str s) => s == tl "invalid_image"
  | _ => false

/-- Oracle of the outcomes the `random` module produces during one call
of `add_mock_pest_data`: the uniform draw of `random.random()`, the
index choices of `random.choice`, the offset of `random.randint(75,95)`
and the subsets `random.sample` returns. -/
structure MockRand where
  u : Dec
  pestIdx : Nat
  sevIdx : Nat
  confRnd : Nat
  sampleSyms : List (List Char) → Nat → List (List Char)
  sampleTreats : List (List Char) → Nat → List (List Char)
  sampleCommon : List (List Char) → Nat → List (List Char)

/-- The pest-presence decision of `add_mock_pest_data`: never for
`invalid_image`, `random.random() < 0.6` for diseased leaves and
`random.random() < 0.3` for healthy ones. -/
def mockPestDetected (result : PyDict) (rnd : MockRand) : Bool :=
  if isInvalidImage (pyGet result (tl "disease_type")) then false
  else if pyTruthyO (pyGet result (tl "disease_detected")) then decLt rnd.u ⟨6, -1⟩
  else decLt rnd.u ⟨3, -1⟩

/-- The pest entry `random.choice` picked. -/
def mockChosenInfo (rnd : MockRand) : PestInfo :=
  (((pest_library.get? (rnd.pestIdx % pest_library.length)).map Prod.snd)).getD ⟨[], [], []⟩

/-- The detected branch of `add_mock_pest_data` (the assignments of
lines 173-184 of the UI module). -/
def mockDetectedDict (result : PyDict) (rnd : MockRand) : PyDict :=
  let info := mockChosenInfo rnd
  let d1 := dictSet result (tl "pest_detected") (.bool true)
  let d2 := dictSet d1 (tl "pest_name") (.str info.name)
  let d3 := dictSet d2 (tl "pest_severity")
    (.str ((severityChoices.get? (rnd.sevIdx % severityChoices.length)).getD []))
  let d4 := dictSet d3 (tl "pest_confidence") (.num (decCanon (75 + rnd.confRnd % 21) 0))
  let d5 := dictSet d4 (tl "pest_symptoms")
    (.arr ((rnd.sampleSyms info.symptoms (min 3 info.symptoms.length)).map .str))
  let d6 := dictSet d5 (tl "pest_treatment")
    (.arr ((rnd.sampleTreats info.treatments (min 3 info.treatments.length)).map .str))
  if pyTruthyO (pyGet d6 (tl "disease_detected")) then
    dictSet d6 (tl "common_pests")
      (.arr ((rnd.sampleCommon (pest_library.map Prod.fst)
        (min 3 (pest_library.map Prod.fst).length)).map (fun k => .str (pestNameOf k))))
  else d6

/-- The not-detected branch of `add_mock_pest_data` (lines 185-192):
every pest field reset to its default. -/
def mockElseDict (result : PyDict) : PyDict :=
  let d1 := dictSet result (tl "pest_detected") (.bool false)
  let d2 := dictSet d1 (tl "pest_name") .null
  let d3 := dictSet d2 (tl "pest_severity") (.str (tl "none"))
  let d4 := dictSet d3 (tl "pest_confidence") (.num ⟨0, 0⟩)
  let d5 := dictSet d4 (tl "pest_symptoms") (.arr [])
  let d6 := dictSet d5 (tl "pest_treatment") (.arr [])
  dictSet d6 (tl "common_pests") (.arr [])

/-- Lines 194-196: set `analysis_timestamp` to the current clock
reading `now` only when the key is absent. -/
def mockEnsureTimestamp (r : PyDict) (now : List Char) : PyDict :=
  if r.any (fun p => p.1 == tl "analysis_timestamp") then r
  else dictSet r (tl "analysis_timestamp") (.str now)

/-- Model of `add_mock_pest_data` of the UI module: decide pest presence, fill
or reset the pest fields, and ensure an `analysis_timestamp` (`now` is
the clock reading of this call). -/
def add_mock_pest_data (result : PyDict) (rnd : MockRand) (now : List Char) : PyDict :=
  mockEnsureTimestamp
    (if mockPestDetected result rnd then mockDetectedDict result rnd
     else mockElseDict result) now

/-- Decimal digits of an integer. -/
def intToChars (z : ℤ) : List Char :=
  if z < 0 then '-' :: Nat.toDigits 10 z.natAbs else Nat.toDigits 10 z.natAbs

/-- Rendering of a `Dec` inside `json.dumps` output: digits, an
optional sign and an optional exponent marker — characters that cannot
contribute to any alphabetic keyword below. -/
def dumpDec (d : Dec) : List Char :=
  intToChars d.m ++ (if d.e == 0 then [] else 'e' :: intToChars d.e)

/-- String-body escaping of `json.dumps` (quotes and backslashes; the
texts in this program contain nothing else needing escapes). -/
def escapeJson (s : List Char) : List Char :=
  s.foldr (fun c acc =>
    (if c = '"' then ['\\', '"'] else if c = '\\' then ['\\', '\\'] else [c]) ++ acc) []

/-- Comma-space separated concatenation. -/
def joinComma (xs : List (List Char)) : List Char := List.intercalate (tl ", ") xs

mutual

/-- Number of `JValue` constructors in a value, an executable bound on
its nesting depth. -/
def jSize : JValue → Nat
  | .null => 1
  | .bool _ => 1
  | .num _ => 1
  | .str _ => 1
  | .arr xs => jSizeList xs + 1
  | .obj kvs => jSizeObj kvs + 1

/-- Total `jSize` over a list of values. -/
def jSizeList : List JValue → Nat
  | [] => 0
  | x :: xs => jSize x + jSizeList xs

/-- Total `jSize` over the values of an association list. -/
def jSizeObj : List (List Char × JValue) → Nat
  | [] => 0
  | (_, v) :: ps => jSize v + jSizeObj ps

end

/-- Fuelled worker for `json.dumps`; the fuel bounds the nesting depth
and `jsonDumpsDict` supplies more than enough of it. -/
def dumpValF : Nat → JValue → List Char
  | 0, _ => []
  | fuel + 1, v =>
    match v with
    | .null => tl "null"
    | .bool true => tl "true"
    | .bool false => tl "false"
    | .num d => dumpDec d
    | .str s => '"' :: escapeJson s ++ ['"']
    | .arr xs => '[' :: joinComma (xs.map (dumpValF fuel)) ++ [']']
    | .obj kvs =>
      openBrace :: joinComma (kvs.map (fun p =>
        '"' :: escapeJson p.1 ++ ['"', ':', ' '] ++ dumpValF fuel p.2)) ++ [closeBrace]

/-- Model of `json.dumps` on a dict (the serialized form whose lower-cased text
the pest-keyword rule scans). -/
def jsonDumpsDict (d : PyDict) : List Char :=
  dumpValF (jSize (JValue.obj d)) (JValue.obj d)

/-- Python `str.lower()` (the texts scanned are ASCII). -/
def lowerList (s : List Char) : List Char := s.map Char.toLower

/-- The keyword list of the simple pest-detection rule in
`test_with_base64_data`. -/
def pest_keywords : List (List Char) :=
  tls ["insect", "worm", "larva", "chewing", "holes", "bite", "pest", "aphid", "caterpillar"]

/-- The hard-coded replacement record of the pest-detection rule. -/
def pestOverrideDict : PyDict := [
  (tl "disease_detected", .bool true),
  (tl "disease_name", .str (tl "Pest Infestation")),
  (tl "disease_type", .str (tl "insect/pest")),
  (tl "severity", .str (tl "moderate")),
  (tl "confidence", .num ⟨85, 0⟩),
  (tl "symptoms", .arr [
    .str (tl "Visible insects or larvae on the leaf surface"),
    .str (tl "Holes or chewed edges on the leaf"),
    .str (tl "Yellowing or drooping around pest-affected areas")]),
  (tl "possible_causes", .arr [
    .str (tl "Aphids, caterpillars, beetles, or leaf miners feeding on foliage")]),
  (tl "treatment", .arr [
    .str (tl "Remove and dispose of affected leaves"),
    .str (tl "Spray neem oil or insecticidal soap"),
    .str (tl "Use biological controls (ladybugs, lacewings)")])]

/-- The simple pest-detection rule of `test_with_base64_data`: if the
lower-cased `json.dumps` serialization of the result contains any
keyword, replace the whole result by the fixed record. -/
def simple_pest_detection_rule (result : PyDict) : PyDict :=
  let text_blob := lowerList (jsonDumpsDict result)
  if pest_keywords.any (fun kw => containsSeq kw text_blob) then pestOverrideDict
  else result

/-- An object text wrapped in a markdown fenced code block with the
`json` language tag. -/
def wrapJson (t : List Char) : List Char :=
  fenceJson ++ ('\n' :: (t ++ '\n' :: fence3))

/-- The raw reply with no braces at all from the hard-failure example. -/
def cannotStr : List Char := "I cannot analyze this image.".toList

/-- An object whose `confidence` value is the non-numeric string
`"eighty-five"`. -/
def eightyFiveStr : List Char := "\x7b\"confidence\": \"eighty-five\"\x7d".toList

/-- An object containing only `"pest_detected": true`. -/
def pdOnlyStr : List Char := "\x7b\"pest_detected\": true\x7d".toList

/-- The documented invalid-image reply of the prompt convention. -/
def invalidReplyStr : List Char :=
  ("\x7b\"disease_detected\": false, \"disease_type\": \"invalid_image\", "
    ++ "\"confidence\": 95, \"symptoms\": [\"This image does not contain a plant leaf\"], "
    ++ "\"treatment\": [\"Please upload an image of a plant leaf for disease analysis\"]\x7d").toList

/-- An object pairing `disease_detected: true` with
`disease_type: "invalid_image"`. -/
def ddInvalidStr : List Char :=
  "\x7b\"disease_detected\": true, \"disease_type\": \"invalid_image\"\x7d".toList

/-- An object text holding a fence marker inside a string value. -/
def fenceInsideStr : List Char := "\x7b\"disease_name\": \"```x\"\x7d".toList

/-- The record all of whose fields carry their documented defaults. -/
def baseRec (ts : List Char) : DiseaseAnalysisResult := {
  disease_detected := false,
  disease_name := .null,
  disease_type := .str "unknown".toList,
  severity := .str "unknown".toList,
  confidence := ⟨0, 0⟩,
  symptoms := .arr [],
  possible_causes := .arr [],
  treatment := .arr [],
  common_pests := .arr [],
  pest_detected := false,
  pest_name := .null,
  pest_severity := .str "none".toList,
  pest_confidence := ⟨0, 0⟩,
  pest_symptoms := .arr [],
  pest_treatment := .arr [],
  analysis_timestamp := ts }

/-- The surrounding prose of the embedded-extraction example. -/
def prose1 : List Char := "Here is the result: ".toList

/-- The trailing prose of the embedded-extraction example. -/
def prose2 : List Char := " Thanks.".toList

/-- The record the documented invalid-image reply normalizes to. -/
def invalidReplyRec (ts : List Char) : DiseaseAnalysisResult :=
  { baseRec ts with
    disease_type := .str (tl "invalid_image"),
    confidence := ⟨95, 0⟩,
    symptoms := .arr [.str (tl "This image does not contain a plant leaf")],
    treatment := .arr [.str (tl "Please upload an image of a plant leaf for disease analysis")] }

/-- The record `ddInvalidStr` normalizes to: `disease_detected` kept
truthy while `disease_type` is `"invalid_image"`. -/
def ddInvalidRec (ts : List Char) : DiseaseAnalysisResult :=
  { baseRec ts with
    disease_detected := true,
    disease_type := .str (tl "invalid_image") }

/-! ## Theorems -/

theorem replaceAllF_congr (p0 : Char) (pr rep : List Char) :
    ∀ f1 f2 cs, cs.length ≤ f1 → cs.length ≤ f2 →
      replaceAllF p0 pr rep f1 cs = replaceAllF p0 pr rep f2 cs := by
  intro f1
  induction f1 with
  | zero =>
    intro f2 cs h1 _
    have : cs = [] := List.length_eq_zero.mp (Nat.le_zero.mp h1)
    subst this
    cases f2 <;> simp [replaceAllF]
  | succ g1 ih =>
    intro f2 cs h1 h2
    match cs, f2 with
    | [], f2 => cases f2 <;> simp [replaceAllF]
    | c :: rest, 0 => simp at h2
    | c :: rest, g2 + 1 =>
      simp only [replaceAllF]
      by_cases hp : (p0 :: pr).isPrefixOf (c :: rest) = true
      · rw [if_pos hp, if_pos hp]
        have hd : (rest.drop pr.length).length ≤ g1 := by
          simp only [List.length_drop]
          simp only [List.length_cons] at h1
          omega
        have hd2 : (rest.drop pr.length).length ≤ g2 := by
          simp only [List.length_drop]
          simp only [List.length_cons] at h2
          omega
        rw [ih _ _ hd hd2]
      · rw [if_neg hp, if_neg hp]
        have hr : rest.length ≤ g1 := by
          simp only [List.length_cons] at h1; omega
        have hr2 : rest.length ≤ g2 := by
          simp only [List.length_cons] at h2; omega
        rw [ih _ _ hr hr2]

theorem replaceAll_nil (p0 : Char) (pr rep : List Char) :
    replaceAll p0 pr rep [] = [] := rfl

theorem replaceAll_cons_pos (p0 : Char) (pr rep : List Char) (c : Char)
    (rest : List Char) (h : (p0 :: pr).isPrefixOf (c :: rest) = true) :
    replaceAll p0 pr rep (c :: rest)
      = rep ++ replaceAll p0 pr rep (rest.drop pr.length) := by
  show replaceAllF p0 pr rep (c :: rest).length (c :: rest) = _
  simp only [List.length_cons, replaceAllF, h, if_true]
  rw [replaceAllF_congr p0 pr rep rest.length (rest.drop pr.length).length _
    (by simp only [List.length_drop]; omega) (Nat.le_refl _)]
  rfl

theorem replaceAll_cons_neg (p0 : Char) (pr rep : List Char) (c : Char)
    (rest : List Char) (h : (p0 :: pr).isPrefixOf (c :: rest) = false) :
    replaceAll p0 pr rep (c :: rest) = c :: replaceAll p0 pr rep rest := by
  show replaceAllF p0 pr rep (c :: rest).length (c :: rest) = _
  simp only [List.length_cons, replaceAllF, h]
  rw [if_neg Bool.false_ne_true]
  rfl

theorem isPrefixOf_append_self (l r : List Char) : l.isPrefixOf (l ++ r) = true := by
  induction l with
  | nil => simp [List.isPrefixOf]
  | cons c cs ih => simp [List.isPrefixOf, ih]

theorem isPrefixOf_of_append_left (x y s : List Char)
    (h : (x ++ y).isPrefixOf s = true) : x.isPrefixOf s = true := by
  induction x generalizing s with
  | nil => simp [List.isPrefixOf]
  | cons c cs ih =>
    cases s with
    | nil => simp [List.isPrefixOf] at h
    | cons d ds =>
      simp only [List.cons_append, List.isPrefixOf, Bool.and_eq_true, beq_iff_eq] at h ⊢
      exact ⟨h.1, ih ds h.2⟩

theorem isPrefixOf_extend (pat s y : List Char)
    (h : pat.isPrefixOf s = true) : pat.isPrefixOf (s ++ y) = true := by
  induction pat generalizing s with
  | nil => simp [List.isPrefixOf]
  | cons c cs ih =>
    cases s with
    | nil => simp [List.isPrefixOf] at h
    | cons d ds =>
      simp only [List.isPrefixOf, Bool.and_eq_true] at h
      simp only [List.cons_append, List.isPrefixOf, Bool.and_eq_true]
      exact ⟨h.1, ih ds h.2⟩

theorem containsSeq_of_isPrefixOf (pat s : List Char)
    (h : pat.isPrefixOf s = true) : containsSeq pat s = true := by
  cases s with
  | nil => simpa [containsSeq] using h
  | cons c rest => simp [containsSeq, h]

theorem containsSeq_append_left (pat x s : List Char)
    (h : containsSeq pat s = true) : containsSeq pat (x ++ s) = true := by
  induction x with
  | nil => simpa using h
  | cons c cs ih =>
    have hu : containsSeq pat (c :: (cs ++ s))
        = (pat.isPrefixOf (c :: (cs ++ s)) || containsSeq pat (cs ++ s)) := rfl
    rw [List.cons_append, hu, ih, Bool.or_true]

theorem containsSeq_append_right (pat s y : List Char)
    (h : containsSeq pat s = true) : containsSeq pat (s ++ y) = true := by
  induction s with
  | nil =>
    have h0 : pat.isPrefixOf [] = true := by simpa [containsSeq] using h
    exact containsSeq_of_isPrefixOf pat y (isPrefixOf_extend pat [] y h0)
  | cons c rest ih =>
    simp only [containsSeq, Bool.or_eq_true] at h
    rcases h with h | h
    · exact containsSeq_of_isPrefixOf _ _
        (by simpa [List.cons_append] using isPrefixOf_extend pat (c :: rest) y h)
    · simp only [List.cons_append, containsSeq, Bool.or_eq_true]
      exact Or.inr (ih h)

theorem containsSeq_cons_false (pat : List Char) (c : Char) (rest : List Char)
    (h : containsSeq pat (c :: rest) = false) :
    pat.isPrefixOf (c :: rest) = false ∧ containsSeq pat rest = false := by
  simpa [containsSeq, Bool.or_eq_false_iff] using h

theorem dropWhile_append_all (p : Char → Bool) (l1 l2 : List Char)
    (h : ∀ c ∈ l1, p c = true) :
    (l1 ++ l2).dropWhile p = l2.dropWhile p := by
  induction l1 with
  | nil => rfl
  | cons c cs ih =>
    have hc : p c = true := h c (by simp)
    simp only [List.cons_append, List.dropWhile_cons_of_pos hc]
    exact ih (fun d hd => h d (by simp [hd]))

theorem dropWhile_append_ne_nil (p : Char → Bool) (l1 l2 : List Char)
    (h : l1.dropWhile p ≠ []) :
    (l1 ++ l2).dropWhile p = l1.dropWhile p ++ l2 := by
  induction l1 with
  | nil => simp at h
  | cons c cs ih =>
    by_cases hc : p c = true
    · simp only [List.cons_append, List.dropWhile_cons_of_pos hc]
      simp only [List.dropWhile_cons_of_pos hc] at h
      exact ih h
    · rw [Bool.not_eq_true] at hc
      have hc' : ¬ p c = true := by simp [hc]
      rw [List.cons_append, List.dropWhile_cons_of_neg hc',
        List.dropWhile_cons_of_neg hc', List.cons_append]

theorem takeWhile_all (p : Char → Bool) (l : List Char) :
    ∀ c ∈ l.takeWhile p, p c = true := by
  induction l with
  | nil => simp
  | cons c cs ih =>
    by_cases hc : p c = true
    · simp only [List.takeWhile_cons_of_pos hc, List.mem_cons]
      rintro d (rfl | hd)
      · exact hc
      · exact ih d hd
    · simp [List.takeWhile_cons_of_neg hc]

theorem replaceAll_of_not_containsSeq (p0 : Char) (pr rep s : List Char)
    (h : containsSeq (p0 :: pr) s = false) : replaceAll p0 pr rep s = s := by
  induction s with
  | nil => rfl
  | cons c rest ih =>
    obtain ⟨h1, h2⟩ := containsSeq_cons_false _ _ _ h
    rw [replaceAll_cons_neg _ _ _ _ _ h1, ih h2]

theorem stripLeft_cons_ws (c : Char) (s : List Char) (hc : isPyWs c = true) :
    stripLeft (c :: s) = stripLeft s := by
  simp [stripLeft, List.dropWhile_cons_of_pos hc]

theorem pyStrip_cons_ws (c : Char) (s : List Char) (hc : isPyWs c = true) :
    pyStrip (c :: s) = pyStrip s := by
  simp [pyStrip, stripLeft_cons_ws c s hc]

theorem stripRight_append_ws (s : List Char) (c : Char) (hc : isPyWs c = true) :
    stripRight (s ++ [c]) = stripRight s := by
  simp [stripRight, List.reverse_append, List.dropWhile_cons_of_pos hc]

theorem pyStrip_append_ws (s : List Char) (c : Char) (hc : isPyWs c = true) :
    pyStrip (s ++ [c]) = pyStrip s := by
  unfold pyStrip
  by_cases h : stripLeft s = []
  · have hall : ∀ x ∈ s, isPyWs x = true := List.dropWhile_eq_nil_iff.mp h
    have h2 : stripLeft (s ++ [c]) = [] := by
      unfold stripLeft
      rw [dropWhile_append_all _ _ _ hall]
      simp [List.dropWhile_cons_of_pos hc]
    rw [h, h2]
  · have h2 : stripLeft (s ++ [c]) = stripLeft s ++ [c] :=
      dropWhile_append_ne_nil _ _ _ h
    rw [h2, stripRight_append_ws _ _ hc]

theorem pyStrip_eq_self (c : Char) (mid : List Char) (d : Char)
    (hc : isPyWs c = false) (hd : isPyWs d = false) :
    pyStrip (c :: (mid ++ [d])) = c :: (mid ++ [d]) := by
  have hc' : ¬ isPyWs c = true := by simp [hc]
  have hd' : ¬ isPyWs d = true := by simp [hd]
  unfold pyStrip stripLeft stripRight
  rw [List.dropWhile_cons_of_neg hc']
  have hrev : (c :: (mid ++ [d])).reverse = d :: (mid.reverse ++ [c]) := by
    simp [List.reverse_append]
  rw [hrev, List.dropWhile_cons_of_neg hd', ← hrev, List.reverse_reverse]

theorem pyStrip_decomp (s : List Char) :
    ∃ a b, (∀ x ∈ a, isPyWs x = true) ∧ (∀ x ∈ b, isPyWs x = true) ∧
      s = a ++ pyStrip s ++ b := by
  refine ⟨s.takeWhile isPyWs, ((stripLeft s).reverse.takeWhile isPyWs).reverse,
    takeWhile_all _ _, ?_, ?_⟩
  · intro x hx
    rw [List.mem_reverse] at hx
    exact takeWhile_all _ _ x hx
  · have h1 : s = s.takeWhile isPyWs ++ stripLeft s :=
      (List.takeWhile_append_dropWhile isPyWs s).symm
    have h2 : stripLeft s
        = pyStrip s ++ ((stripLeft s).reverse.takeWhile isPyWs).reverse := by
      have h3 : (stripLeft s).reverse
          = (stripLeft s).reverse.takeWhile isPyWs ++ (stripLeft s).reverse.dropWhile isPyWs :=
        (List.takeWhile_append_dropWhile isPyWs _).symm
      calc stripLeft s = (stripLeft s).reverse.reverse := (List.reverse_reverse _).symm
        _ = ((stripLeft s).reverse.takeWhile isPyWs
              ++ (stripLeft s).reverse.dropWhile isPyWs).reverse := by rw [← h3]
        _ = pyStrip s ++ ((stripLeft s).reverse.takeWhile isPyWs).reverse := by
              rw [List.reverse_append]; rfl
    calc s = s.takeWhile isPyWs ++ stripLeft s := h1
      _ = s.takeWhile isPyWs ++ (pyStrip s
            ++ ((stripLeft s).reverse.takeWhile isPyWs).reverse) := by rw [← h2]
      _ = _ := by rw [List.append_assoc]

theorem containsSeq_pyStrip (pat s : List Char)
    (h : containsSeq pat (pyStrip s) = true) : containsSeq pat s = true := by
  obtain ⟨a, b, -, -, hdecomp⟩ := pyStrip_decomp s
  rw [hdecomp, List.append_assoc]
  exact containsSeq_append_left _ _ _ (containsSeq_append_right _ _ _ h)

theorem fenceJson_eq : fenceJson = fence3 ++ ['j', 's', 'o', 'n'] := rfl

theorem replaceAllL_fenceJson (rep cs : List Char) :
    replaceAllL fenceJson rep cs
      = replaceAll tick [tick, tick, 'j', 's', 'o', 'n'] rep cs := rfl

theorem replaceAllL_fence3 (rep cs : List Char) :
    replaceAllL fence3 rep cs = replaceAll tick [tick, tick] rep cs := rfl

theorem fence3_not_prefix_ext (a : Char) (t2 ext : List Char)
    (h : fence3.isPrefixOf (a :: t2) = false) :
    fence3.isPrefixOf (a :: (t2 ++ ('\n' :: ext))) = false := by
  match t2 with
  | [] =>
    simp only [List.nil_append]
    simp [fence3, List.isPrefixOf, show (tick == '\n') = false from by decide]
  | [b] =>
    simp only [List.cons_append, List.nil_append]
    simp [fence3, List.isPrefixOf, show (tick == '\n') = false from by decide]
  | b :: c :: rest =>
    simp only [fence3, List.isPrefixOf, Bool.and_eq_false_iff] at h ⊢
    simpa using h

theorem fenceJson_prefix_false (a : Char) (t2 : List Char)
    (h : fence3.isPrefixOf (a :: t2) = false) :
    fenceJson.isPrefixOf (a :: (t2 ++ ('\n' :: fence3))) = false := by
  by_cases hj : fenceJson.isPrefixOf (a :: (t2 ++ ('\n' :: fence3))) = true
  · have h3 : fence3.isPrefixOf (a :: (t2 ++ ('\n' :: fence3))) = true :=
      isPrefixOf_of_append_left fence3 ['j', 's', 'o', 'n'] _ (fenceJson_eq ▸ hj)
    rw [fence3_not_prefix_ext a t2 fence3 h] at h3
    exact absurd h3 (by simp)
  · simp only [Bool.not_eq_true] at hj
    exact hj

theorem containsSeq_fence7_wrap (t : List Char) (h : containsSeq fence3 t = false) :
    containsSeq fenceJson (t ++ ('\n' :: fence3)) = false := by
  induction t with
  | nil => decide
  | cons a t2 ih =>
    obtain ⟨h1, h2⟩ := containsSeq_cons_false fence3 a t2 h
    have hu : containsSeq fenceJson ((a :: t2) ++ ('\n' :: fence3))
        = (fenceJson.isPrefixOf (a :: (t2 ++ ('\n' :: fence3)))
            || containsSeq fenceJson (t2 ++ ('\n' :: fence3))) := rfl
    rw [hu, fenceJson_prefix_false a t2 h1, ih h2, Bool.or_self]

theorem replaceAll_fence3_trailing (t : List Char) (h : containsSeq fence3 t = false) :
    replaceAll tick [tick, tick] [] (t ++ ('\n' :: fence3)) = t ++ ['\n'] := by
  induction t with
  | nil => decide
  | cons a t2 ih =>
    obtain ⟨h1, h2⟩ := containsSeq_cons_false fence3 a t2 h
    have hpre : (tick :: [tick, tick]).isPrefixOf (a :: (t2 ++ ('\n' :: fence3))) = false :=
      fence3_not_prefix_ext a t2 fence3 h1
    calc replaceAll tick [tick, tick] [] ((a :: t2) ++ ('\n' :: fence3))
        = a :: replaceAll tick [tick, tick] [] (t2 ++ ('\n' :: fence3)) := by
          rw [List.cons_append]
          exact replaceAll_cons_neg _ _ _ _ _ hpre
      _ = a :: (t2 ++ ['\n']) := by rw [ih h2]
      _ = (a :: t2) ++ ['\n'] := by rw [List.cons_append]

theorem braceCore_embed (p t s : List Char)
    (hp : ∀ c ∈ p, notOpenCh c = true)
    (hs1 : ∀ c ∈ s, notOpenCh c = true)
    (hs2 : ∀ c ∈ s, notCloseCh c = true) :
    braceCore (p ++ t ++ s) = braceCore t := by
  unfold braceCore
  rw [List.append_assoc, dropWhile_append_all _ _ _ hp]
  by_cases h : t.dropWhile notOpenCh = []
  · rw [dropWhile_append_all _ _ _ (List.dropWhile_eq_nil_iff.mp h), h,
      List.dropWhile_eq_nil_iff.mpr hs1]
  · rw [dropWhile_append_ne_nil _ _ _ h, List.reverse_append,
      dropWhile_append_all _ _ _ (fun c hc => hs2 c (List.mem_reverse.mp hc))]

theorem braceExtract_embed (p t s : List Char)
    (hp : ∀ c ∈ p, notOpenCh c = true)
    (hs1 : ∀ c ∈ s, notOpenCh c = true)
    (hs2 : ∀ c ∈ s, notCloseCh c = true) :
    braceExtract (p ++ t ++ s) = braceExtract t := by
  unfold braceExtract
  rw [braceCore_embed p t s hp hs1 hs2]

/-- The stripped text is what the brace extraction finds when an object
text is embedded between brace-free affixes. -/
theorem braceExtract_strip_obj (t mid : List Char)
    (hshape : pyStrip t = openBrace :: (mid ++ [closeBrace])) :
    braceExtract t = some (pyStrip t) := by
  obtain ⟨a, b, ha, hb, hdecomp⟩ := pyStrip_decomp t
  have hws_open : ∀ c ∈ a, notOpenCh c = true := by
    intro c hc
    have := ha c hc
    simp only [notOpenCh]
    cases hcc : c == openBrace
    · rfl
    · exfalso
      have : c = openBrace := by exact beq_iff_eq.mp hcc
      subst this
      simp [isPyWs, openBrace] at *
  have hws_open_b : ∀ c ∈ b, notOpenCh c = true := by
    intro c hc
    have := hb c hc
    simp only [notOpenCh]
    cases hcc : c == openBrace
    · rfl
    · exfalso
      have : c = openBrace := by exact beq_iff_eq.mp hcc
      subst this
      simp [isPyWs, openBrace] at *
  have hws_close_b : ∀ c ∈ b, notCloseCh c = true := by
    intro c hc
    have := hb c hc
    simp only [notCloseCh]
    cases hcc : c == closeBrace
    · rfl
    · exfalso
      have : c = closeBrace := by exact beq_iff_eq.mp hcc
      subst this
      simp [isPyWs, closeBrace] at *
  have hemb : braceExtract t = braceExtract (pyStrip t) := by
    conv_lhs => rw [hdecomp]
    exact braceExtract_embed a (pyStrip t) b hws_open hws_open_b hws_close_b
  have hcore : braceCore (pyStrip t) = pyStrip t := by
    rw [hshape]
    unfold braceCore
    rw [List.dropWhile_cons_of_neg (by simp [notOpenCh])]
    have hrev : (openBrace :: (mid ++ [closeBrace])).reverse
        = closeBrace :: (mid.reverse ++ [openBrace]) := by
      simp [List.reverse_append]
    rw [hrev, List.dropWhile_cons_of_neg (by simp [notCloseCh]), ← hrev,
      List.reverse_reverse]
  rw [hemb]
  unfold braceExtract
  rw [hcore, hshape]
  simp

theorem wrapJson_shape (t : List Char) :
    wrapJson t
      = tick :: ((tick :: tick :: 'j' :: 's' :: 'o' :: 'n' :: '\n'
          :: (t ++ ['\n', tick, tick])) ++ [tick]) := by
  simp [wrapJson, fenceJson, fence3, List.append_assoc]

theorem pyStrip_wrapJson (t : List Char) : pyStrip (wrapJson t) = wrapJson t := by
  rw [wrapJson_shape]
  exact pyStrip_eq_self tick _ tick (by decide) (by decide)

theorem replaceAll_fenceJson_wrapJson (t : List Char)
    (h : containsSeq fence3 t = false) :
    replaceAllL fenceJson [] (wrapJson t) = '\n' :: (t ++ '\n' :: fence3) := by
  rw [replaceAllL_fenceJson]
  have hshape : wrapJson t
      = tick :: ([tick, tick, 'j', 's', 'o', 'n'] ++ ('\n' :: (t ++ '\n' :: fence3))) := rfl
  rw [hshape]
  have hpre : (tick :: [tick, tick, 'j', 's', 'o', 'n']).isPrefixOf
      (tick :: ([tick, tick, 'j', 's', 'o', 'n'] ++ ('\n' :: (t ++ '\n' :: fence3)))) = true :=
    isPrefixOf_append_self fenceJson ('\n' :: (t ++ '\n' :: fence3))
  rw [replaceAll_cons_pos tick [tick, tick, 'j', 's', 'o', 'n'] [] tick
    ([tick, tick, 'j', 's', 'o', 'n'] ++ ('\n' :: (t ++ '\n' :: fence3))) hpre]
  have hdrop : (([tick, tick, 'j', 's', 'o', 'n']
      ++ ('\n' :: (t ++ '\n' :: fence3)))).drop
        (([tick, tick, 'j', 's', 'o', 'n'] : List Char)).length
      = '\n' :: (t ++ '\n' :: fence3) := rfl
  rw [hdrop, List.nil_append]
  apply replaceAll_of_not_containsSeq
  show containsSeq fenceJson ('\n' :: (t ++ '\n' :: fence3)) = false
  have hu : containsSeq fenceJson ('\n' :: (t ++ '\n' :: fence3))
      = (fenceJson.isPrefixOf ('\n' :: (t ++ '\n' :: fence3))
          || containsSeq fenceJson (t ++ '\n' :: fence3)) := rfl
  rw [hu, containsSeq_fence7_wrap t h]
  simp [fenceJson, List.isPrefixOf, show (tick == '\n') = false from by decide]

theorem replaceAll_fence3_mid (t : List Char)
    (h : containsSeq fence3 t = false) :
    replaceAllL fence3 [] ('\n' :: (t ++ '\n' :: fence3)) = '\n' :: (t ++ ['\n']) := by
  rw [replaceAllL_fence3]
  rw [replaceAll_cons_neg _ _ _ _ _
    (by simp [List.isPrefixOf, show (tick == '\n') = false from by decide])]
  rw [replaceAll_fence3_trailing t h]

theorem cleanFences_wrapJson (t : List Char) (h : containsSeq fence3 t = false) :
    cleanFences (wrapJson t) = pyStrip t := by
  unfold cleanFences
  rw [pyStrip_wrapJson]
  rw [if_pos (show pyStartsWith (wrapJson t) fenceJson = true from
    isPrefixOf_append_self fenceJson _)]
  rw [replaceAll_fenceJson_wrapJson t h, replaceAll_fence3_mid t h]
  rw [pyStrip_cons_ws '\n' _ (by decide)]
  rw [show t ++ ['\n'] = t ++ ['\n'] from rfl, pyStrip_append_ws t '\n' (by decide)]

theorem cleanFences_noFence (t : List Char) (h : containsSeq fence3 t = false) :
    cleanFences t = pyStrip t := by
  have h3 : fence3.isPrefixOf (pyStrip t) = false := by
    by_cases hb : fence3.isPrefixOf (pyStrip t) = true
    · have := containsSeq_pyStrip fence3 t (containsSeq_of_isPrefixOf _ _ hb)
      rw [this] at h
      exact absurd h (by simp)
    · simp only [Bool.not_eq_true] at hb
      exact hb
  have h7 : fenceJson.isPrefixOf (pyStrip t) = false := by
    by_cases hb : fenceJson.isPrefixOf (pyStrip t) = true
    · have := isPrefixOf_of_append_left fence3 ['j', 's', 'o', 'n'] _ (fenceJson_eq ▸ hb)
      rw [h3] at this
      exact absurd this (by simp)
    · simp only [Bool.not_eq_true] at hb
      exact hb
  unfold cleanFences
  rw [if_neg (by simp [pyStartsWith, h7]), if_neg (by simp [pyStartsWith, h3])]

theorem braceExtract_wrapJson (t : List Char) :
    braceExtract (wrapJson t) = braceExtract t := by
  have hshape : wrapJson t = (fenceJson ++ ['\n']) ++ t ++ ('\n' :: fence3) := by
    simp [wrapJson, fenceJson, fence3, List.append_assoc]
  rw [hshape]
  exact braceExtract_embed _ _ _ (by decide) (by decide) (by decide)

theorem filter_map_dictSet (k : List Char) (v : JValue) (ps : PyDict) :
    ((ps.map (fun p => if p.1 == k then (k, v) else p)).filter (fun p => p.1 == k))
      = List.replicate ((ps.filter (fun p => p.1 == k)).length) (k, v) := by
  induction ps with
  | nil => rfl
  | cons p ps ih =>
    by_cases hp : (p.1 == k) = true
    · simp only [List.map_cons, hp, if_true, List.filter_cons]
      have hk : ((k, v).1 == k) = true := by simp
      simp only [hk, if_true]
      rw [ih]
      simp [List.replicate]
    · rw [Bool.not_eq_true] at hp
      simp only [List.map_cons, hp, if_false, Bool.false_eq_true, List.filter_cons, ih]

theorem getLast?_replicate_succ (n : Nat) (a : List Char × JValue) :
    (List.replicate (n + 1) a).getLast? = some a := by
  rw [List.replicate_succ', List.getLast?_concat]

theorem pyGet_dictSet_self (kvs : PyDict) (k : List Char) (v : JValue) :
    pyGet (dictSet kvs k v) k = some v := by
  unfold dictSet pyGet
  by_cases h : kvs.any (fun p => p.1 == k) = true
  · rw [if_pos h, filter_map_dictSet]
    have hlen : (kvs.filter (fun p => p.1 == k)).length ≠ 0 := by
      intro hz
      rw [List.length_eq_zero] at hz
      rw [List.any_eq_true] at h
      obtain ⟨p, hp, hbeq⟩ := h
      have : p ∈ kvs.filter (fun p => p.1 == k) := List.mem_filter.mpr ⟨hp, hbeq⟩
      rw [hz] at this
      exact absurd this (List.not_mem_nil p)
    obtain ⟨m, hm⟩ := Nat.exists_eq_succ_of_ne_zero hlen
    rw [hm, getLast?_replicate_succ]
    rfl
  · rw [if_neg h, List.filter_append]
    have h1 : ([(k, v)].filter (fun p => p.1 == k)) = [(k, v)] := by simp
    rw [h1, List.getLast?_concat]
    rfl

theorem filter_map_dictSet_ne (k v_k : List Char) (v : JValue) (hne : v_k ≠ k) :
    ∀ ps : PyDict,
      ((ps.map (fun p => if p.1 == k then (k, v) else p)).filter (fun p => p.1 == v_k))
        = ps.filter (fun p => p.1 == v_k) := by
  intro ps
  induction ps with
  | nil => rfl
  | cons p ps ih =>
    by_cases hp : (p.1 == k) = true
    · have hpk : p.1 = k := beq_iff_eq.mp hp
      have h1 : ((k, v).1 == v_k) = false := by
        simp only [beq_eq_false_iff_ne]
        exact fun hcontra => hne hcontra.symm
      have h2 : (p.1 == v_k) = false := by
        rw [hpk]
        simp only [beq_eq_false_iff_ne]
        exact fun hcontra => hne hcontra.symm
      simp only [List.map_cons, hp, if_true, List.filter_cons, h1, h2,
        Bool.false_eq_true, if_false]
      exact ih
    · rw [Bool.not_eq_true] at hp
      simp only [List.map_cons, hp, Bool.false_eq_true, if_false, List.filter_cons]
      by_cases hv : (p.1 == v_k) = true
      · simp only [hv, if_true]
        rw [ih]
      · rw [Bool.not_eq_true] at hv
        simp only [hv, Bool.false_eq_true, if_false]
        exact ih

theorem pyGet_dictSet_ne (kvs : PyDict) (k v_k : List Char) (v : JValue)
    (h : v_k ≠ k) : pyGet (dictSet kvs k v) v_k = pyGet kvs v_k := by
  unfold dictSet pyGet
  by_cases ha : kvs.any (fun p => p.1 == k) = true
  · rw [if_pos ha, filter_map_dictSet_ne k v_k v h kvs]
  · rw [if_neg ha, List.filter_append]
    have h1 : ([(k, v)].filter (fun p => p.1 == v_k)) = [] := by
      have h2 : ((k, v).1 == v_k) = false := by
        simp only [beq_eq_false_iff_ne]
        exact fun hcontra => h hcontra.symm
      simp [List.filter, h2]
    rw [h1, List.append_nil]

theorem pyFloat_error_cases (v : JValue) (e : PyError) (h : pyFloat v = .error e) :
    e = .floatValueError ∨ e = .floatTypeError := by
  cases v with
  | num q => simp [pyFloat] at h
  | bool b => simp [pyFloat] at h
  | str s =>
    simp only [pyFloat] at h
    cases hp : pyFloatParse s with
    | some q => rw [hp] at h; simp at h
    | none =>
      rw [hp] at h
      simp only [Except.error.injEq] at h
      exact Or.inl h.symm
  | null =>
    simp only [pyFloat, Except.error.injEq] at h
    exact Or.inr h.symm
  | arr xs =>
    simp only [pyFloat, Except.error.injEq] at h
    exact Or.inr h.symm
  | obj kvs =>
    simp only [pyFloat, Except.error.injEq] at h
    exact Or.inr h.symm

theorem buildResult_obj_eq (ts : List Char) (kvs : PyDict) (q1 q2 : Dec)
    (h1 : pyFloat (pyGetD kvs "confidence".toList (.num ⟨0, 0⟩)) = .ok q1)
    (h2 : pyFloat (pyGetD kvs "pest_confidence".toList (.num ⟨0, 0⟩)) = .ok q2) :
    buildResult ts (.obj kvs) = .ok {
      disease_detected := pyTruthy (pyGetD kvs "disease_detected".toList (.bool false)),
      disease_name := pyGetD kvs "disease_name".toList .null,
      disease_type := pyGetD kvs "disease_type".toList (.str "unknown".toList),
      severity := pyGetD kvs "severity".toList (.str "unknown".toList),
      confidence := q1,
      symptoms := pyGetD kvs "symptoms".toList (.arr []),
      possible_causes := pyGetD kvs "possible_causes".toList (.arr []),
      treatment := pyGetD kvs "treatment".toList (.arr []),
      common_pests := postInitList (pyGetD kvs "common_pests".toList (.arr [])),
      pest_detected := pyTruthy (pyGetD kvs "pest_detected".toList (.bool false)),
      pest_name := pyGetD kvs "pest_name".toList .null,
      pest_severity := pyGetD kvs "pest_severity".toList (.str "none".toList),
      pest_confidence := q2,
      pest_symptoms := postInitList (pyGetD kvs "pest_symptoms".toList (.arr [])),
      pest_treatment := postInitList (pyGetD kvs "pest_treatment".toList (.arr [])),
      analysis_timestamp := ts } := by
  simp only [buildResult, bind, Except.bind, h1, h2]

theorem buildResult_not_unparseable (ts : List Char) (v : JValue) (ex : List Char) :
    buildResult ts v ≠ .error (.unparseable ex) := by
  intro hcontra
  cases v with
  | obj kvs =>
    simp only [buildResult, bind, Except.bind] at hcontra
    cases hc1 : pyFloat (pyGetD kvs "confidence".toList (.num ⟨0, 0⟩)) with
    | error e =>
      rw [hc1] at hcontra
      obtain he | he := pyFloat_error_cases _ _ hc1 <;> subst he <;>
        simp at hcontra
    | ok q1 =>
      rw [hc1] at hcontra
      cases hc2 : pyFloat (pyGetD kvs "pest_confidence".toList (.num ⟨0, 0⟩)) with
      | error e =>
        rw [hc2] at hcontra
        obtain he | he := pyFloat_error_cases _ _ hc2 <;> subst he <;>
          simp at hcontra
      | ok q2 =>
        rw [hc2] at hcontra
        simp at hcontra
  | null => simp [buildResult] at hcontra
  | bool b => simp [buildResult] at hcontra
  | num q => simp [buildResult] at hcontra
  | str s => simp [buildResult] at hcontra
  | arr xs => simp [buildResult] at hcontra

theorem buildResult_timestamp (ts : List Char) (v : JValue) (r : DiseaseAnalysisResult)
    (h : buildResult ts v = .ok r) : r.analysis_timestamp = ts := by
  cases v with
  | obj kvs =>
    simp only [buildResult, bind, Except.bind] at h
    cases hc1 : pyFloat (pyGetD kvs "confidence".toList (.num ⟨0, 0⟩)) with
    | error e => rw [hc1] at h; simp at h
    | ok q1 =>
      rw [hc1] at h
      cases hc2 : pyFloat (pyGetD kvs "pest_confidence".toList (.num ⟨0, 0⟩)) with
      | error e => rw [hc2] at h; simp at h
      | ok q2 =>
        rw [hc2] at h
        simp only [Except.ok.injEq] at h
        rw [← h]
  | null => simp [buildResult] at h
  | bool b => simp [buildResult] at h
  | num q => simp [buildResult] at h
  | str s => simp [buildResult] at h
  | arr xs => simp [buildResult] at h

/-- Helper: every record `parse_response` returns carries the
module-load timestamp. -/
theorem parse_response_timestamp (ts raw : List Char) (r : DiseaseAnalysisResult)
    (h : parse_response ts raw = .ok r) : r.analysis_timestamp = ts := by
  unfold parse_response at h
  cases hj : jsonLoads (cleanFences raw) with
  | some v =>
    rw [hj] at h
    exact buildResult_timestamp ts v r h
  | none =>
    rw [hj] at h
    cases hb : braceExtract raw with
    | some sub =>
      rw [hb] at h
      dsimp only at h
      cases hjs : jsonLoads sub with
      | some v =>
        rw [hjs] at h
        exact buildResult_timestamp ts v r h
      | none =>
        rw [hjs] at h
        exact absurd h (by simp)
    | none =>
      rw [hb] at h
      exact absurd h (by simp)

/-- C2: `normalize` raises `UnparseableResponseError` (the final
`ValueError`, carrying the first 200 characters of the raw text) iff
both the direct parse of the fence-cleaned text and the brace-to-brace
extraction fail to produce a parseable object; in particular the
brace-free reply `"I cannot analyze this image."` raises it, with the
whole (shorter than 200 characters) text as excerpt. -/
theorem normalize_unparseable_iff (ts raw : List Char) :
    (parse_response ts raw = .error (.unparseable (raw.take 200))
      ↔ (jsonLoads (cleanFences raw) = none ∧ (braceExtract raw).bind jsonLoads = none))
    ∧ parse_response ts cannotStr = .error (.unparseable cannotStr) := by
  refine ⟨?_, rfl⟩
  unfold parse_response
  cases hj : jsonLoads (cleanFences raw) with
  | some v =>
    dsimp only
    constructor
    · intro h
      exact absurd h (buildResult_not_unparseable ts v _)
    · rintro ⟨h1, -⟩
      cases h1
  | none =>
    dsimp only
    cases hb : braceExtract raw with
    | none =>
      dsimp only
      constructor
      · intro _
        exact ⟨rfl, rfl⟩
      · intro _
        rfl
    | some sub =>
      dsimp only
      cases hjs : jsonLoads sub with
      | some v =>
        dsimp only
        constructor
        · intro h
          exact absurd h (buildResult_not_unparseable ts v _)
        · rintro ⟨-, h2⟩
          simp only [Option.bind] at h2
          rw [hjs] at h2
          cases h2
      | none =>
        dsimp only
        constructor
        · intro _
          refine ⟨rfl, ?_⟩
          simp only [Option.bind]
          rw [hjs]
        · intro _
          rfl

/-- Witness for C2 at the concrete brace-free reply. -/
theorem normalize_unparseable_iff_witness :
    parse_response [] cannotStr = .error (.unparseable cannotStr) :=
  (normalize_unparseable_iff [] []).2

/-- C7: the `analysis_timestamp` of every record `_parse_response`
constructs is the single value the dataclass field default received at
class-definition (module-load) time — two records built by different
calls, at different wall-clock times, therefore carry the same
timestamp, and nothing is recomputed on later reads.  This contradicts
the specified per-record-construction assignment: the dataclass default
`datetime.now().astimezone().isoformat()` is evaluated once at import. -/
theorem analysis_timestamp_constant (ts raw1 raw2 : List Char)
    (r1 r2 : DiseaseAnalysisResult)
    (h1 : parse_response ts raw1 = .ok r1) (h2 : parse_response ts raw2 = .ok r2) :
    r1.analysis_timestamp = ts ∧ r1.analysis_timestamp = r2.analysis_timestamp := by
  have e1 := parse_response_timestamp ts raw1 r1 h1
  have e2 := parse_response_timestamp ts raw2 r2 h2
  exact ⟨e1, e1.trans e2.symm⟩

/-- Witness for C7 at two concrete replies. -/
theorem analysis_timestamp_constant_witness :
    ({ baseRec ['T'] with pest_detected := true } : DiseaseAnalysisResult).analysis_timestamp
        = ['T']
      ∧ ({ baseRec ['T'] with pest_detected := true } : DiseaseAnalysisResult).analysis_timestamp
        = (baseRec ['T']).analysis_timestamp :=
  analysis_timestamp_constant ['T'] pdOnlyStr "\x7b\x7d".toList _ _ rfl rfl

theorem splitOnceComma_append (pre post : List Char) (h : ',' ∉ pre) :
    splitOnceComma (pre ++ ',' :: post) = some (pre, post) := by
  induction pre with
  | nil => simp [splitOnceComma]
  | cons c cs ih =>
    have hc : ¬ c = ',' := by
      intro hcontra
      exact h (by simp [hcontra])
    simp only [List.cons_append, splitOnceComma, hc, if_false, List.append_eq]
    rw [ih (fun hm => h (by simp [hm]))]
    rfl

theorem splitOnceComma_none (s : List Char) (h : ',' ∉ s) :
    splitOnceComma s = none := by
  induction s with
  | nil => rfl
  | cons c cs ih =>
    have hc : ¬ c = ',' := by
      intro hcontra
      exact h (by simp [hcontra])
    simp only [splitOnceComma, hc, if_false]
    rw [ih (fun hm => h (by simp [hm]))]
    rfl

/-- C8: the encoder step rejects every empty input with the
empty-image `ValueError` (the spec name `InvalidInputError`); a
data-URL input is reduced to the payload after the first comma — the
prefix up to and including that separator is dropped; and any other
non-empty input passes through unchanged (a pure transformation of the
payload). -/
theorem encoder_contract (s pre post : List Char) :
    (s = [] → analyze_leaf_image_base64_input s = .error .emptyInputError)
    ∧ (',' ∉ pre →
        analyze_leaf_image_base64_input (dataMarker ++ pre ++ ',' :: post) = .ok post)
    ∧ (s ≠ [] → pyStartsWith s dataMarker = false →
        analyze_leaf_image_base64_input s = .ok s) := by
  refine ⟨?_, ?_, ?_⟩
  · intro hs
    subst hs
    rfl
  · intro hpre
    unfold analyze_leaf_image_base64_input
    rw [if_neg (by simp [dataMarker])]
    rw [if_pos (by
      rw [List.append_assoc]
      exact isPrefixOf_append_self dataMarker (pre ++ ',' :: post))]
    have hsplit : splitOnceComma (dataMarker ++ pre ++ ',' :: post)
        = some (dataMarker ++ pre, post) := by
      rw [List.append_assoc]
      have hnp : ',' ∉ dataMarker ++ pre := by
        intro hm
        rcases List.mem_append.mp hm with hm | hm
        · simp [dataMarker] at hm
        · exact hpre hm
      have := splitOnceComma_append (dataMarker ++ pre) post hnp
      rw [List.append_assoc] at this
      exact this
    rw [hsplit]
  · intro hne hns
    unfold analyze_leaf_image_base64_input
    rw [if_neg (by simpa using hne), if_neg (by simp [hns])]

/-- Witness for C8 at concrete inputs. -/
theorem encoder_contract_witness :
    analyze_leaf_image_base64_input [] = .error .emptyInputError
    ∧ analyze_leaf_image_base64_input
        (dataMarker ++ "image/png;base64".toList ++ ',' :: "QUJD".toList)
      = .ok "QUJD".toList
    ∧ analyze_leaf_image_base64_input "QUJD".toList = .ok "QUJD".toList := by
  obtain ⟨h1, h2, h3⟩ :=
    encoder_contract [] "image/png;base64".toList "QUJD".toList
  refine ⟨h1 rfl, h2 (by decide), ?_⟩
  obtain ⟨-, -, h3'⟩ :=
    encoder_contract "QUJD".toList "image/png;base64".toList "QUJD".toList
  exact h3' (by decide) (by decide)

/-- C9: an input that starts with `data:` but contains no comma makes
`analyze_leaf_image_base64` raise an uncaught `IndexError` from
`split(',', 1)[1]` — not the empty-input `ValueError`: the
prefix-stripping branch assumes a separator is present. -/
theorem data_prefix_without_comma_index_error (s : List Char)
    (h1 : pyStartsWith s dataMarker = true) (h2 : ',' ∉ s) :
    analyze_leaf_image_base64_input s = .error .indexError := by
  have hne : s ≠ [] := by
    intro hcontra
    subst hcontra
    simp [pyStartsWith, dataMarker, List.isPrefixOf] at h1
  unfold analyze_leaf_image_base64_input
  rw [if_neg (by simpa using hne), if_pos h1, splitOnceComma_none s h2]

/-- Witness for C9 at `"data:foo"`. -/
theorem data_prefix_without_comma_index_error_witness :
    analyze_leaf_image_base64_input "data:foo".toList = .error .indexError :=
  data_prefix_without_comma_index_error "data:foo".toList (by decide) (by decide)

/-- C1 (amended): the field-extraction step succeeds whenever the
`confidence` and `pest_confidence` values present in the parsed object
are float-convertible, and then every absent key receives its
documented default (booleans `false`, name fields `null`,
`disease_type`/`severity` the string `"unknown"`, `pest_severity`
`"none"`, numbers `0`, sequences empty); but contrary to the claim a
non-numeric value for `confidence` or `pest_confidence` raises the
`float()` conversion error instead of defaulting to `0`. -/
theorem normalize_defaulting_amended (ts : List Char) (kvs : PyDict) (q1 q2 : Dec)
    (h1 : pyFloat (pyGetD kvs "confidence".toList (.num ⟨0, 0⟩)) = .ok q1)
    (h2 : pyFloat (pyGetD kvs "pest_confidence".toList (.num ⟨0, 0⟩)) = .ok q2) :
    ∃ r, buildResult ts (.obj kvs) = .ok r
      ∧ (pyGet kvs "confidence".toList = none → r.confidence = ⟨0, 0⟩)
      ∧ (pyGet kvs "pest_confidence".toList = none → r.pest_confidence = ⟨0, 0⟩)
      ∧ (pyGet kvs "disease_detected".toList = none → r.disease_detected = false)
      ∧ (pyGet kvs "pest_detected".toList = none → r.pest_detected = false)
      ∧ (pyGet kvs "disease_name".toList = none → r.disease_name = .null)
      ∧ (pyGet kvs "pest_name".toList = none → r.pest_name = .null)
      ∧ (pyGet kvs "disease_type".toList = none → r.disease_type = .str "unknown".toList)
      ∧ (pyGet kvs "severity".toList = none → r.severity = .str "unknown".toList)
      ∧ (pyGet kvs "pest_severity".toList = none → r.pest_severity = .str "none".toList)
      ∧ (pyGet kvs "symptoms".toList = none → r.symptoms = .arr [])
      ∧ (pyGet kvs "possible_causes".toList = none → r.possible_causes = .arr [])
      ∧ (pyGet kvs "treatment".toList = none → r.treatment = .arr [])
      ∧ (pyGet kvs "common_pests".toList = none → r.common_pests = .arr [])
      ∧ (pyGet kvs "pest_symptoms".toList = none → r.pest_symptoms = .arr [])
      ∧ (pyGet kvs "pest_treatment".toList = none → r.pest_treatment = .arr [])
      ∧ parse_response ts eightyFiveStr = .error .floatValueError := by
  refine ⟨_, buildResult_obj_eq ts kvs q1 q2 h1 h2, ?_, ?_, ?_, ?_, ?_, ?_, ?_, ?_,
    ?_, ?_, ?_, ?_, ?_, ?_, ?_, rfl⟩
  · intro habs
    rw [pyGetD, habs] at h1
    simp only [Option.getD, pyFloat, Except.ok.injEq] at h1
    exact h1.symm
  · intro habs
    rw [pyGetD, habs] at h2
    simp only [Option.getD, pyFloat, Except.ok.injEq] at h2
    exact h2.symm
  all_goals intro habs
  all_goals simp only [pyGetD, habs, Option.getD]
  all_goals rfl

/-- Witness for C1 (amended): the empty object extracts to the fully
defaulted record. -/
theorem normalize_defaulting_amended_witness :
    buildResult ['T'] (.obj []) = .ok (baseRec ['T']) := by
  have h := normalize_defaulting_amended ['T'] [] ⟨0, 0⟩ ⟨0, 0⟩ rfl rfl
  exact rfl

/-- Counterexample to C1 as stated: the parsed object
`\x7b"confidence": "eighty-five"\x7d` makes `_parse_response` raise the
`float()` conversion `ValueError` instead of defaulting `confidence`
to `0`. -/
theorem normalize_nonnumeric_confidence_raises :
    parse_response [] eightyFiveStr = .error .floatValueError := rfl

/-- C3 (amended): for every object text free of the fence marker
` ``` ` — without which the wrapping is not a well-formed fenced block —
wrapping the text in a markdown fenced code block with the `json`
language tag normalizes to the same record as the bare text. -/
theorem normalize_fenced_eq_bare (ts t : List Char) (r : DiseaseAnalysisResult)
    (hFree : containsSeq fence3 t = false)
    (hOk : parse_response ts t = .ok r) :
    parse_response ts (wrapJson t) = .ok r := by
  have hcw : cleanFences (wrapJson t) = pyStrip t := cleanFences_wrapJson t hFree
  have hcb : cleanFences t = pyStrip t := cleanFences_noFence t hFree
  unfold parse_response at hOk ⊢
  rw [hcw]
  rw [hcb] at hOk
  cases hj : jsonLoads (pyStrip t) with
  | some v =>
    rw [hj] at hOk
    exact hOk
  | none =>
    rw [hj] at hOk
    dsimp only at hOk ⊢
    rw [braceExtract_wrapJson t]
    cases hb : braceExtract t with
    | none =>
      rw [hb] at hOk
      cases hOk
    | some sub =>
      rw [hb] at hOk
      dsimp only at hOk ⊢
      cases hjs : jsonLoads sub with
      | some v =>
        rw [hjs] at hOk
        exact hOk
      | none =>
        rw [hjs] at hOk
        cases hOk

/-- Witness for C3 (amended) at a concrete fence-free object text. -/
theorem normalize_fenced_eq_bare_witness :
    parse_response ['T'] (wrapJson pdOnlyStr)
      = .ok { baseRec ['T'] with pest_detected := true } :=
  normalize_fenced_eq_bare ['T'] pdOnlyStr _ (by decide) rfl

/-- Counterexample to C3 as stated: for the object text
`\x7b"disease_name": "```x"\x7d` — whose string value contains a fence
marker — the wrapped input normalizes to a different record than the
bare input, because `replace` deletes the inner backticks too. -/
theorem normalize_fenced_counterexample :
    (parse_response [] fenceInsideStr).map (fun r => r.disease_name)
        = .ok (.str "```x".toList)
      ∧ (parse_response [] (wrapJson fenceInsideStr)).map (fun r => r.disease_name)
        = .ok (.str "x".toList)
      ∧ "```x".toList ≠ "x".toList := ⟨rfl, rfl, by decide⟩

theorem parseValue_H (fuel : Nat) (cs : List Char) :
    parseValue fuel ('H' :: cs) = none := by
  cases fuel with
  | zero => rfl
  | succ g => rfl

theorem jsonLoads_H (cs : List Char) : jsonLoads ('H' :: cs) = none := by
  simp [jsonLoads, parseValue_H]

/-- C4: embedding a parseable object text in the prose
`"Here is the result: ... Thanks."` (which contains no braces of its
own) normalizes to the same record as the bare object text, via the
greedy first-`\x7b`-to-last-`\x7d` extraction. -/
theorem normalize_embedded_eq_bare (ts j mid : List Char) (v : JValue)
    (hshape : pyStrip j = openBrace :: (mid ++ [closeBrace]))
    (hparse : jsonLoads (pyStrip j) = some v) :
    parse_response ts (prose1 ++ j ++ prose2) = parse_response ts j := by
  have hfullshape : prose1 ++ j ++ prose2
      = 'H' :: (("ere is the result: ".toList ++ j ++ " Thanks".toList) ++ ['.']) := by
    simp [prose1, prose2, List.append_assoc]
  have hstrip : pyStrip (prose1 ++ j ++ prose2) = prose1 ++ j ++ prose2 := by
    rw [hfullshape]
    exact pyStrip_eq_self 'H' _ '.' (by decide) (by decide)
  have hcf : cleanFences (prose1 ++ j ++ prose2) = prose1 ++ j ++ prose2 := by
    unfold cleanFences
    rw [hstrip]
    rw [if_neg (by
      rw [hfullshape]
      simp [pyStartsWith, fenceJson, List.isPrefixOf,
        show (tick == 'H') = false from by decide])]
    rw [if_neg (by
      rw [hfullshape]
      simp [pyStartsWith, fence3, List.isPrefixOf,
        show (tick == 'H') = false from by decide])]
  have hload : jsonLoads (prose1 ++ j ++ prose2) = none := by
    rw [hfullshape]
    exact jsonLoads_H _
  have hbrace : braceExtract (prose1 ++ j ++ prose2) = some (pyStrip j) := by
    rw [braceExtract_embed prose1 j prose2 (by decide) (by decide) (by decide)]
    exact braceExtract_strip_obj j mid hshape
  have hcfj : cleanFences j = pyStrip j := by
    unfold cleanFences
    rw [if_neg (by
      rw [hshape]
      simp [pyStartsWith, fenceJson, List.isPrefixOf,
        show (tick == openBrace) = false from by decide])]
    rw [if_neg (by
      rw [hshape]
      simp [pyStartsWith, fence3, List.isPrefixOf,
        show (tick == openBrace) = false from by decide])]
  unfold parse_response
  rw [hcf, hload, hcfj, hparse]
  dsimp only
  rw [hbrace]
  dsimp only
  rw [hparse]

/-- Witness for C4 at a concrete object text. -/
theorem normalize_embedded_eq_bare_witness :
    parse_response ['T'] (prose1 ++ "\x7b\"confidence\": 5\x7d".toList ++ prose2)
      = parse_response ['T'] "\x7b\"confidence\": 5\x7d".toList :=
  normalize_embedded_eq_bare ['T'] "\x7b\"confidence\": 5\x7d".toList
    "\"confidence\": 5".toList (.obj [("confidence".toList, .num ⟨5, 0⟩)])
    (by decide) rfl

theorem pyGet_mockEnsureTimestamp (r : PyDict) (now k : List Char)
    (h : k ≠ tl "analysis_timestamp") :
    pyGet (mockEnsureTimestamp r now) k = pyGet r k := by
  unfold mockEnsureTimestamp
  split
  · rfl
  · exact pyGet_dictSet_ne r _ k _ h

theorem mockElseDict_defaults (d : PyDict) :
    pyGet (mockElseDict d) (tl "pest_detected") = some (.bool false)
    ∧ pyGet (mockElseDict d) (tl "pest_name") = some .null
    ∧ pyGet (mockElseDict d) (tl "pest_severity") = some (.str (tl "none"))
    ∧ pyGet (mockElseDict d) (tl "pest_confidence") = some (.num ⟨0, 0⟩)
    ∧ pyGet (mockElseDict d) (tl "pest_symptoms") = some (.arr [])
    ∧ pyGet (mockElseDict d) (tl "pest_treatment") = some (.arr [])
    ∧ pyGet (mockElseDict d) (tl "common_pests") = some (.arr []) := by
  unfold mockElseDict
  dsimp only
  refine ⟨?_, ?_, ?_, ?_, ?_, ?_, ?_⟩ <;>
    (repeat first
      | rw [pyGet_dictSet_self]
      | rw [pyGet_dictSet_ne _ _ _ _ (by decide)])

theorem mockDetectedDict_pest (d : PyDict) (rnd : MockRand) :
    pyGet (mockDetectedDict d rnd) (tl "pest_detected") = some (.bool true)
    ∧ pyGet (mockDetectedDict d rnd) (tl "pest_name")
        = some (.str (mockChosenInfo rnd).name) := by
  unfold mockDetectedDict
  dsimp only
  constructor <;>
    (split <;>
      (repeat first
        | rw [pyGet_dictSet_self]
        | rw [pyGet_dictSet_ne _ _ _ _ (by decide)]))

/-- C5 (amended): every dict `add_mock_pest_data` returns satisfies the
invariant — a truthy `pest_detected` comes with a string (non-null)
`pest_name` — but `_parse_response` does not enforce it: a parsed
object containing only `pest_detected: true` normalizes to a record
with `pest_detected = true` and `pest_name = null`. -/
theorem pest_invariant_amended (d : PyDict) (rnd : MockRand) (now ts : List Char) :
    (pyGet (add_mock_pest_data d rnd now) (tl "pest_detected") = some (.bool true) →
      pyGet (add_mock_pest_data d rnd now) (tl "pest_name")
        = some (.str (mockChosenInfo rnd).name))
    ∧ parse_response ts pdOnlyStr = .ok { baseRec ts with pest_detected := true }
    ∧ ({ baseRec ts with pest_detected := true } : DiseaseAnalysisResult).pest_name
        = .null := by
  refine ⟨?_, rfl, rfl⟩
  intro habs
  unfold add_mock_pest_data at habs ⊢
  by_cases hd : mockPestDetected d rnd = true
  · rw [if_pos hd] at habs ⊢
    rw [pyGet_mockEnsureTimestamp _ _ _ (by decide), (mockDetectedDict_pest d rnd).2]
  · rw [if_neg hd] at habs
    rw [pyGet_mockEnsureTimestamp _ _ _ (by decide), (mockElseDict_defaults d).1] at habs
    cases habs

/-- Witness for C5 (amended): a detected-branch run of the mock step
carries the library pest name of the chosen entry. -/
theorem pest_invariant_amended_witness :
    pyGet (add_mock_pest_data [] ⟨⟨1, -1⟩, 0, 0, 0, fun xs _ => xs, fun xs _ => xs,
        fun xs _ => xs⟩ (tl "now")) (tl "pest_name") = some (.str (tl "Aphids")) :=
  (pest_invariant_amended [] ⟨⟨1, -1⟩, 0, 0, 0, fun xs _ => xs, fun xs _ => xs,
    fun xs _ => xs⟩ (tl "now") []).1 rfl

/-- Counterexample to C5 as stated: the normalized record of
`\x7b"pest_detected": true\x7d` has `pest_detected = true` but a null
`pest_name`. -/
theorem pest_name_counterexample :
    parse_response [] pdOnlyStr = .ok { baseRec [] with pest_detected := true }
    ∧ ({ baseRec [] with pest_detected := true } : DiseaseAnalysisResult).pest_detected
        = true
    ∧ ({ baseRec [] with pest_detected := true } : DiseaseAnalysisResult).pest_name
        = .null := ⟨rfl, rfl, rfl⟩

set_option maxRecDepth 8000 in
set_option maxHeartbeats 2000000 in
/-- C6 (amended): when the `disease_type` of the dict equals
`"invalid_image"`, `add_mock_pest_data` forces every pest field to its
empty/default state, and the documented invalid-image reply normalizes
to `diseaseDetected = false`, `diseaseType = "invalid_image"` with all
pest fields default; but neither step forces `diseaseDetected` to
`false` — it follows the `disease_detected` value of the input. -/
theorem invalid_image_amended (d : PyDict) (rnd : MockRand) (now ts : List Char) :
    (isInvalidImage (pyGet d (tl "disease_type")) = true →
      pyGet (add_mock_pest_data d rnd now) (tl "pest_detected") = some (.bool false)
      ∧ pyGet (add_mock_pest_data d rnd now) (tl "pest_name") = some .null
      ∧ pyGet (add_mock_pest_data d rnd now) (tl "pest_severity") = some (.str (tl "none"))
      ∧ pyGet (add_mock_pest_data d rnd now) (tl "pest_confidence") = some (.num ⟨0, 0⟩)
      ∧ pyGet (add_mock_pest_data d rnd now) (tl "pest_symptoms") = some (.arr [])
      ∧ pyGet (add_mock_pest_data d rnd now) (tl "pest_treatment") = some (.arr [])
      ∧ pyGet (add_mock_pest_data d rnd now) (tl "common_pests") = some (.arr []))
    ∧ parse_response ts invalidReplyStr = .ok (invalidReplyRec ts)
    ∧ (invalidReplyRec ts).disease_detected = false
    ∧ (invalidReplyRec ts).disease_type = .str (tl "invalid_image")
    ∧ (invalidReplyRec ts).pest_detected = false
    ∧ (invalidReplyRec ts).pest_name = .null := by
  refine ⟨?_, ?_, rfl, rfl, rfl, rfl⟩
  case refine_2 =>
    show parse_response ts invalidReplyStr = .ok (invalidReplyRec ts)
    rfl
  intro hInv
  have hpd : mockPestDetected d rnd = false := by
    unfold mockPestDetected
    rw [if_pos hInv]
  unfold add_mock_pest_data
  rw [if_neg (by simp [hpd])]
  obtain ⟨e1, e2, e3, e4, e5, e6, e7⟩ := mockElseDict_defaults d
  refine ⟨?_, ?_, ?_, ?_, ?_, ?_, ?_⟩ <;>
    rw [pyGet_mockEnsureTimestamp _ _ _ (by decide)] <;> assumption

/-- Witness for C6 (amended) at a concrete invalid-image dict. -/
theorem invalid_image_amended_witness :
    pyGet (add_mock_pest_data [(tl "disease_type", .str (tl "invalid_image"))]
        ⟨⟨1, -1⟩, 0, 0, 0, fun xs _ => xs, fun xs _ => xs, fun xs _ => xs⟩ (tl "now"))
      (tl "pest_detected") = some (.bool false) :=
  ((invalid_image_amended [(tl "disease_type", .str (tl "invalid_image"))]
    ⟨⟨1, -1⟩, 0, 0, 0, fun xs _ => xs, fun xs _ => xs, fun xs _ => xs⟩
    (tl "now") []).1 rfl).1

/-- Counterexample to C6 as stated: a parsed object pairing
`disease_detected: true` with `disease_type: "invalid_image"`
normalizes to a record with `diseaseType = "invalid_image"` yet
`diseaseDetected = true`. -/
theorem invalid_image_counterexample :
    parse_response [] ddInvalidStr = .ok (ddInvalidRec [])
    ∧ (ddInvalidRec []).disease_type = .str (tl "invalid_image")
    ∧ (ddInvalidRec []).disease_detected = true := ⟨rfl, rfl, rfl⟩

/-- C10: whenever the lower-cased `json.dumps` serialization of the
analysis result contains any of the nine pest keywords as a substring
(anywhere, including inside symptom or treatment text), the simple
pest-detection rule of `test_with_base64_data` discards the entire
result and replaces it by the fixed hard-coded `"Pest Infestation"`
record, whose `confidence` is `85.0` and which carries no
`pest_detected`, `pest_name`, `common_pests` nor any other `pest_*`
key. -/
theorem pest_keyword_override (d : PyDict)
    (h : pest_keywords.any (fun kw => containsSeq kw (lowerList (jsonDumpsDict d))) = true) :
    simple_pest_detection_rule d = pestOverrideDict
    ∧ pyGet pestOverrideDict (tl "confidence") = some (.num ⟨85, 0⟩)
    ∧ pyGet pestOverrideDict (tl "pest_detected") = none
    ∧ pyGet pestOverrideDict (tl "pest_name") = none
    ∧ pyGet pestOverrideDict (tl "common_pests") = none
    ∧ ∀ kv ∈ pestOverrideDict, ("pest_".toList).isPrefixOf kv.1 = false := by
  refine ⟨?_, rfl, rfl, rfl, rfl, by decide⟩
  unfold simple_pest_detection_rule
  rw [if_pos h]

/-- Witness for C10: a result whose disease name mentions a pest. -/
theorem pest_keyword_override_witness :
    simple_pest_detection_rule [(tl "disease_name", .str (tl "Leaf pest damage"))]
      = pestOverrideDict :=
  (pest_keyword_override [(tl "disease_name", .str (tl "Leaf pest damage"))] rfl).1
